import Mathlib

/-!
Shallow embedding of the schema synchronization subsystem of the
aws-toolkit-vscode repository (`src/shared/schemas.ts`).

Modelling conventions:
* `vscode.Uri` values are modelled as `String`s with value equality (the
  ownership table and the JSON-settings store are specified over document
  URIs, and all counterexamples below use string schema references, for
  which the source's `!==` is value inequality as well).
* The `schema` field of a mapping is either a named key into the resolved
  schema table or a direct URI (`SchemaRef`).
* Collaborators outside `schemas.ts` (resource fetchers, the version
  cache, the file system, `JSON.parse`) are oracles supplied as explicit
  inputs (`RemoteEnv`, `DefaultSchemasEnv`): each records whether the
  corresponding fallible step succeeds and what content it returns.
  JavaScript's falsiness of the empty string is modelled explicitly
  (`hasCachedContent`, `fetchedContent`).
* Asynchronous interleaving during a drain is modelled by an explicit
  arrival schedule: `arrivals` lists, per awaited handler call, the
  mappings pushed onto the queue while that call is suspended.
-/

namespace AwsSchemas

/-- `SchemaType` from schemas.ts: the closed set of handler keys. -/
inductive SchemaType where
  | json
  | yaml
deriving DecidableEq

/-- The `schema` field of a `SchemaMapping`: `string | vscode.Uri`. -/
inductive SchemaRef where
  | key (name : String)
  | uri (u : String)
deriving DecidableEq

/-- `SchemaMapping` from schemas.ts. -/
structure SchemaMapping where
  uri : String
  type : SchemaType
  owner : Option String := none
  schema : Option SchemaRef := none
deriving DecidableEq

/-- `Schemas` from schemas.ts: the resolved schema table, name to location. -/
abbrev Schemas := List (String × String)

/-- Lookup in the ownership table (`Map.get` with value equality on URIs). -/
def lookupTable : List (String × SchemaMapping) → String → Option SchemaMapping
  | [], _ => none
  | (k, v) :: rest, u => if k = u then some v else lookupTable rest u

/-- `Map.set`: replace the value at an existing key in place, else append. -/
def setTable : List (String × SchemaMapping) → String → SchemaMapping → List (String × SchemaMapping)
  | [], u, m => [(u, m)]
  | (k, v) :: rest, u, m => if k = u then (k, m) :: rest else (k, v) :: setTable rest u m

/-- The mutable state of a `SchemaService` instance: the update queue, the
resolved schema table (absent until `getDefaultSchemas` resolves), and the
ownership table `owned`. -/
structure ServiceState where
  updateQueue : List SchemaMapping := []
  schemas : Option Schemas := none
  owned : List (String × SchemaMapping) := []
deriving DecidableEq

/-- The service state right after the constructor ran: empty queue, empty
ownership table, and whatever schema table (if any) was passed in `opts`. -/
def initialService (schemas : Option Schemas) : ServiceState :=
  { updateQueue := [], schemas := schemas, owned := [] }

/-- The claim-transition phase of `SchemaService.registerMapping`
(schemas.ts lines 107-119): compute `isOwnerUndefined` and
`isSchemaChanged` and overwrite the ownership table entry for the mapping's
URI when either holds. -/
def claimTransition (owned : List (String × SchemaMapping)) (m : SchemaMapping) :
    List (String × SchemaMapping) :=
  let prior := lookupTable owned m.uri
  let isOwnerUndefined := prior.isNone && m.owner.isSome && m.schema.isSome
  let isSchemaChanged := prior.isSome && m.owner.isSome
      && decide (prior.bind (fun x => x.schema) ≠ m.schema)
  if isOwnerUndefined || isSchemaChanged then setTable owned m.uri m else owned

/-- `SchemaService.registerMapping` (schemas.ts lines 106-127), without the
`flush` branch (which merely runs `processUpdates`, modelled separately):
apply the claim transition, then enqueue the mapping exactly when its owner
equals the (possibly just updated) recorded owner for the URI. -/
def registerMapping (s : ServiceState) (m : SchemaMapping) : ServiceState :=
  let owned' := claimTransition s.owned m
  if m.owner = (lookupTable owned' m.uri).bind (fun x => x.owner) then
    { s with owned := owned', updateQueue := s.updateQueue ++ [m] }
  else
    { s with owned := owned' }

/-- The dispatch loop of `SchemaService.processUpdates` over a spliced-out
batch. `hh t` says whether `handlers.get(t)` is defined. `arrivals` gives,
for each awaited `handler.handleUpdate` call, the mappings pushed onto the
queue while that call was suspended; `q` is the live queue (already emptied
by the splice). Returns the dispatched mappings in order, the final queue,
and the error thrown on a missing handler (thrown before any await for that
item, so no arrival group is consumed by it and the rest of the batch is
never dispatched). -/
def dispatchBatch (hh : SchemaType → Bool) :
    List SchemaMapping → List (List SchemaMapping) → List SchemaMapping →
    List SchemaMapping × List SchemaMapping × Option String
  | [], _, q => ([], q, none)
  | m :: rest, arr, q =>
    if hh m.type then
      let out := dispatchBatch hh rest arr.tail (q ++ arr.headD [])
      (m :: out.1, out.2.1, out.2.2)
    else
      ([], q, some "no registered handler for type")

/-- `SchemaService.processUpdates` (schemas.ts lines 129-149) with an
explicit arrival schedule: early-return (queue untouched) when the queue is
empty or the schema table is absent; otherwise splice out the whole queue
as one batch and dispatch it sequentially. Returns the new service state,
the dispatched mappings in order, and the thrown error if any. -/
def processUpdatesA (hh : SchemaType → Bool) (s : ServiceState)
    (arrivals : List (List SchemaMapping)) :
    ServiceState × List SchemaMapping × Option String :=
  if s.updateQueue.isEmpty || s.schemas.isNone then
    (s, [], none)
  else
    let r := dispatchBatch hh s.updateQueue arrivals []
    ({ s with updateQueue := r.2.1 }, r.1, r.2.2)

/-- `processUpdates` with no concurrent enqueues during the drain. -/
def processUpdates (hh : SchemaType → Bool) (s : ServiceState) :
    ServiceState × List SchemaMapping × Option String :=
  processUpdatesA hh s []

/-- One firing of the drain timer started by `SchemaService.startTimer`
(schemas.ts lines 152-161): the callback awaits `processUpdates()` and only
then calls `this.timer?.refresh()`; a rejection of the awaited call skips
the refresh. Returns the state after the drain and whether the timer was
rescheduled. -/
def timerFired (hh : SchemaType → Bool) (s : ServiceState) : ServiceState × Bool :=
  let r := processUpdates hh s
  (r.1, r.2.2.isNone)

/-- One entry of the `json.schemas` setting array (`JSONSchemaSettings`). -/
structure JSONSchemaSettings where
  fileMatch : Option (List String) := none
  url : Option String := none
deriving DecidableEq

/-- `filterJsonSettings` from schemas.ts: filter every entry's `fileMatch`
by the predicate, then drop entries whose `fileMatch` became empty (entries
with no `fileMatch` at all are kept). -/
def filterJsonSettings (settings : List JSONSchemaSettings) (predicate : String → Bool) :
    List JSONSchemaSettings :=
  settings.filterMap fun schema =>
    match schema.fileMatch with
    | none => some schema
    | some fm =>
      let fm' := fm.filter predicate
      if fm'.isEmpty then none else some { schema with fileMatch := some fm' }

/-- `resolveSchema` from schemas.ts: a direct URI is returned as-is, a
named reference is looked up in the resolved schema table. -/
def resolveSchema (schema : SchemaRef) (schemas : Schemas) : Option String :=
  match schema with
  | .uri u => some u
  | .key k =>
    match schemas.find? (fun p => p.1 = k) with
    | some p => some p.2
    | none => none

/-- The fan-in step of `JsonSchemaHandler.handleUpdate`: find the first
setting entry whose `url` is the resolved schema URI; if found and it has a
`fileMatch` list, append the path to it (no entry without `fileMatch` is
touched); if no entry matches, append a fresh `{fileMatch: [path], url}`
entry. -/
def pushPath : List JSONSchemaSettings → String → String → List JSONSchemaSettings
  | [], schemaUri, path => [{ fileMatch := some [path], url := some schemaUri }]
  | s :: rest, schemaUri, path =>
    if s.url = some schemaUri then
      match s.fileMatch with
      | none => s :: rest
      | some fm => { s with fileMatch := some (fm ++ [path]) } :: rest
    else
      s :: pushPath rest schemaUri path

/-- The state of a `JsonSchemaHandler` instance: whether the once-guarded
`cleanResourceMappings` pass has run, and the `json.schemas` setting array
it reads and writes through the configuration store. -/
structure JsonHandlerState where
  cleaned : Bool := false
  settings : List JSONSchemaSettings := []
deriving DecidableEq

/-- The settings transformation of `JsonSchemaHandler.handleUpdate`
(schemas.ts lines 398-432), after the once-only cleanup: with a present
schema, resolve it (an unresolvable reference leaves the settings
unchanged) and fan the path into the matching entry; with an absent
schema, remove the path from every entry's `fileMatch`, dropping entries
that become empty. `normalizeVSCodeUri` and `pathutil.normalize` are
modelled as the identity on the embedded URI strings. -/
def jsonHandleUpdateSettings (settings : List JSONSchemaSettings) (m : SchemaMapping)
    (schemas : Schemas) : List JSONSchemaSettings :=
  let path := m.uri
  match m.schema with
  | some ref =>
    match resolveSchema ref schemas with
    | none => settings
    | some schemaUri => pushPath settings schemaUri path
  | none => filterJsonSettings settings (fun file => file ≠ path)

/-- `JsonSchemaHandler.handleUpdate` including the once-guarded cleanup of
stale `.awsResource.json` entries that runs on the first call. -/
def jsonHandleUpdate (st : JsonHandlerState) (m : SchemaMapping) (schemas : Schemas) :
    JsonHandlerState :=
  let settings0 :=
    if st.cleaned then st.settings
    else filterJsonSettings st.settings (fun file => !(file.endsWith ".awsResource.json"))
  { cleaned := true, settings := jsonHandleUpdateSettings settings0 m schemas }

/-- Sequential dispatch of a drained batch to the JSON handler. -/
def jsonDrain (st : JsonHandlerState) (batch : List SchemaMapping) (schemas : Schemas) :
    JsonHandlerState :=
  batch.foldl (fun acc m => jsonHandleUpdate acc m schemas) st

/-- The environment of one `updateSchemaFromRemote` call: the version cache
entry under `params.cacheKey`, the content of the cached destination file
(none when the file is missing), the content returned by the HTTP fetcher
(none when the fetch rejects), and whether the parse, the write and the
cache-key update succeed. -/
structure RemoteEnv where
  cachedVersion : Option String := none
  cachedContent : Option String := none
  fetchResult : Option String := none
  parseOk : Bool := true
  writeOk : Bool := true
  cacheUpdateOk : Bool := true
deriving DecidableEq

/-- `cachedContent && ...`: the cached destination file content counts only
when present and non-empty (JavaScript truthiness). -/
def hasCachedContent (env : RemoteEnv) : Bool :=
  match env.cachedContent with
  | some c => decide (c ≠ "")
  | none => false

/-- `params.version && params.version !== cachedVersion`: a supplied,
non-empty version that differs from the version cache entry. -/
def isOutdated (version : Option String) (env : RemoteEnv) : Bool :=
  match version with
  | some v => decide (v ≠ "") && decide (some v ≠ env.cachedVersion)
  | none => false

/-- The fetched content as seen past the `if (!content) throw` guard: a
missing fetch result and an empty string both fail the guard. -/
def fetchedContent (env : RemoteEnv) : Option String :=
  match env.fetchResult with
  | some c => if c = "" then none else some c
  | none => none

/-- Observable outcome of one `updateSchemaFromRemote` call: whether it
returned normally (`ok = false` means it threw), whether a network fetch
was attempted, whether the destination file was written, and the version
cache entry after the call. -/
structure UpdateOutcome where
  ok : Bool
  fetched : Bool
  written : Bool
  newCachedVersion : Option String
deriving DecidableEq

/-- `updateSchemaFromRemote` (schemas.ts lines 253-299): early return when
not outdated and cached content exists; otherwise fetch, parse, write and
update the version cache, where a cache-update rejection is absorbed
(logged) and any other failure is absorbed exactly when cached content
existed, else rethrown. -/
def updateSchemaFromRemote (version : Option String) (env : RemoteEnv) : UpdateOutcome :=
  if !(isOutdated version env) && hasCachedContent env then
    { ok := true, fetched := false, written := false, newCachedVersion := env.cachedVersion }
  else
    match fetchedContent env with
    | some _ =>
      if env.parseOk && env.writeOk then
        { ok := true, fetched := true, written := true,
          newCachedVersion := if env.cacheUpdateOk then version else env.cachedVersion }
      else
        { ok := hasCachedContent env, fetched := true, written := false,
          newCachedVersion := env.cachedVersion }
    | none =>
      { ok := hasCachedContent env, fetched := true, written := false,
        newCachedVersion := env.cachedVersion }

/-- The failure condition of the fetch pipeline of `updateSchemaFromRemote`:
the fetch yields no usable content, or the parse throws, or the directory
creation / file write throws. -/
def updatePipelineFails (env : RemoteEnv) : Bool :=
  (fetchedContent env).isNone || !env.parseOk || !env.writeOk

/-- `updateSchemaFromRemote` returned normally. -/
def updateOk (version : Option String) (env : RemoteEnv) : Bool :=
  (updateSchemaFromRemote version env).ok

/-- One buildspec attempt inside `getDefaultSchemas` (schemas.ts lines
208-236): `getFromUrl` on the given source (an `Except.error` models a
rejected fetch), hash the contents into a version when present and
non-empty, then `updateSchemaFromRemote` against that source. `true` means
the whole attempt completed without throwing. `hash` stands for
`getStringHash`; the claims do not depend on its value. -/
def attemptBuildspec (hash : String → String) (fetch : Except Unit (Option String))
    (env : RemoteEnv) : Bool :=
  match fetch with
  | .error _ => false
  | .ok contents =>
    let version := match contents with
      | some c => if c = "" then none else some (hash c)
      | none => none
    updateOk version env

/-- The environment of one `getDefaultSchemas` call: the goformation
manifest version (`getPropertyFromJsonUrl`, a collaborator that per the
spec returns content or nothing), the `updateSchemaFromRemote` environments
for the cfn and sam schemas, and the fetch results and update environments
for the buildspec CDN source and its object-storage fallback. -/
structure DefaultSchemasEnv where
  manifestVersion : Option String := none
  cfnEnv : RemoteEnv := {}
  samEnv : RemoteEnv := {}
  cdnFetch : Except Unit (Option String) := .error ()
  cdnEnv : RemoteEnv := {}
  s3Fetch : Except Unit (Option String) := .error ()
  s3Env : RemoteEnv := {}

/-- `getDefaultSchemas` (schemas.ts lines 171-242): each of the three
schema kinds is attempted under its own try/catch, so a failure only omits
that kind's key from the resolved table; the buildspec kind first tries the
CloudFront URL and, if that whole attempt throws, retries against the S3
fallback URL inside the inner catch. The returned `Except` records whether
an exception escapes the function. -/
def getDefaultSchemas (hash : String → String) (env : DefaultSchemasEnv) :
    Except String (List String) :=
  let cfn := if updateOk env.manifestVersion env.cfnEnv then ["cfn"] else []
  let sam := if updateOk env.manifestVersion env.samEnv then ["sam"] else []
  let bs :=
    if attemptBuildspec hash env.cdnFetch env.cdnEnv then ["buildspec"]
    else if attemptBuildspec hash env.s3Fetch env.s3Env then ["buildspec"]
    else []
  Except.ok (cfn ++ sam ++ bs)

/-- The keys of the resolved schema table produced by `getDefaultSchemas`. -/
def keysOf : Except String (List String) → List String
  | .ok ks => ks
  | .error _ => []

theorem dispatchBatch_no_arrivals (hh : SchemaType → Bool) :
    ∀ (batch : List SchemaMapping) (q : List SchemaMapping),
      (∀ m ∈ batch, hh m.type = true) →
      dispatchBatch hh batch [] q = (batch, q, none) := by
  intro batch
  induction batch with
  | nil => intro q _; rfl
  | cons m rest ih =>
    intro q h
    have hm : hh m.type = true := h m (List.mem_cons_self m rest)
    have hrest : ∀ x ∈ rest, hh x.type = true := fun x hx => h x (List.mem_cons_of_mem m hx)
    simp only [dispatchBatch, hm, if_true, List.tail_nil, List.headD_nil, List.append_nil,
      ih q hrest]

theorem dispatchBatch_all_handled (hh : SchemaType → Bool) :
    ∀ (batch : List SchemaMapping) (arr : List (List SchemaMapping)) (q : List SchemaMapping),
      (∀ m ∈ batch, hh m.type = true) → arr.length = batch.length →
      dispatchBatch hh batch arr q = (batch, q ++ arr.flatten, none) := by
  intro batch
  induction batch with
  | nil =>
    intro arr q _ hlen
    have : arr = [] := List.length_eq_zero.mp hlen
    subst this
    simp [dispatchBatch]
  | cons m rest ih =>
    intro arr q h hlen
    cases arr with
    | nil => simp at hlen
    | cons a arr' =>
      have hm : hh m.type = true := h m (List.mem_cons_self m rest)
      have hrest : ∀ x ∈ rest, hh x.type = true := fun x hx => h x (List.mem_cons_of_mem m hx)
      have hlen' : arr'.length = rest.length := by simpa using hlen
      simp only [dispatchBatch, hm, if_true, List.tail_cons, List.headD_cons,
        ih arr' (q ++ a) hrest hlen', List.flatten_cons, List.append_assoc]

theorem dispatchBatch_missing_handler (hh : SchemaType → Bool) :
    ∀ (pre : List SchemaMapping) (bad : SchemaMapping) (post q : List SchemaMapping),
      (∀ m ∈ pre, hh m.type = true) → hh bad.type = false →
      dispatchBatch hh (pre ++ bad :: post) [] q =
        (pre, q, some "no registered handler for type") := by
  intro pre
  induction pre with
  | nil =>
    intro bad post q _ hbad
    simp [dispatchBatch, hbad]
  | cons m rest ih =>
    intro bad post q h hbad
    have hm : hh m.type = true := h m (List.mem_cons_self m rest)
    have hrest : ∀ x ∈ rest, hh x.type = true := fun x hx => h x (List.mem_cons_of_mem m hx)
    simp only [List.cons_append, dispatchBatch, hm, if_true, List.tail_nil, List.headD_nil,
      List.append_nil, List.append_eq, ih bad post q hrest hbad]

theorem dispatchBatch_err_none_iff (hh : SchemaType → Bool) :
    ∀ (batch : List SchemaMapping) (arr : List (List SchemaMapping)) (q : List SchemaMapping),
      (dispatchBatch hh batch arr q).2.2 = none ↔ (∀ m ∈ batch, hh m.type = true) := by
  intro batch
  induction batch with
  | nil => intro arr q; simp [dispatchBatch]
  | cons m rest ih =>
    intro arr q
    by_cases hm : hh m.type = true
    · simp only [dispatchBatch, hm, if_true, List.forall_mem_cons,
        ih arr.tail (q ++ arr.headD [])]
      tauto
    · simp only [dispatchBatch, if_neg hm, List.forall_mem_cons]
      simp only [Option.some_ne_none]
      tauto

/-- Claim C2 (counterexample): with the resolved schema table absent and a
non-empty queue, `processUpdates` does NOT discard the queued mappings: the
queue still holds the mapping after the call, and a later call with the
table resolved dispatches exactly that mapping, refuting "the drained items
are gone and are not retried on a later tick once the table resolves". -/
theorem processUpdates_absent_table_cex :
    (processUpdates (fun _ => true)
        { updateQueue := [⟨"d", SchemaType.json, some "o", some (.key "cfn")⟩],
          schemas := none, owned := [] }).1.updateQueue =
      [⟨"d", SchemaType.json, some "o", some (.key "cfn")⟩]
    ∧ (processUpdates (fun _ => true)
        { updateQueue := [⟨"d", SchemaType.json, some "o", some (.key "cfn")⟩],
          schemas := some [], owned := [] }).2.1 =
      [⟨"d", SchemaType.json, some "o", some (.key "cfn")⟩] := by decide

/-- Claim C2 (amended): when the resolved schema table is absent,
`processUpdates` returns early without draining: the state (and in
particular the queue) is unchanged and nothing is dispatched, and the
queued mappings are dispatched by a later call once the table resolves. -/
theorem processUpdates_absent_table_retry (hh : SchemaType → Bool) (s : ServiceState)
    (σ : Schemas) (hnone : s.schemas = none)
    (hall : ∀ m ∈ s.updateQueue, hh m.type = true) :
    processUpdates hh s = (s, [], none)
    ∧ (processUpdates hh { s with schemas := some σ }).2.1 = s.updateQueue := by
  constructor
  · simp [processUpdates, processUpdatesA, hnone]
  · by_cases hq : s.updateQueue = []
    · simp [processUpdates, processUpdatesA, hq]
    · have hne : s.updateQueue.isEmpty = false := by
        simpa [List.isEmpty_iff] using hq
      simp [processUpdates, processUpdatesA, hne,
        dispatchBatch_no_arrivals hh s.updateQueue [] hall]

/-- Witness for C2's amended theorem at a concrete input. -/
theorem processUpdates_absent_table_retry_witness :
    processUpdates (fun _ => true)
        { updateQueue := [⟨"w2", SchemaType.yaml, some "o", some (.key "sam")⟩],
          schemas := none, owned := [] } =
      ({ updateQueue := [⟨"w2", SchemaType.yaml, some "o", some (.key "sam")⟩],
         schemas := none, owned := [] }, [], none)
    ∧ (processUpdates (fun _ => true)
        { updateQueue := [⟨"w2", SchemaType.yaml, some "o", some (.key "sam")⟩],
          schemas := some [], owned := [] }).2.1 =
      [⟨"w2", SchemaType.yaml, some "o", some (.key "sam")⟩] :=
  processUpdates_absent_table_retry (fun _ => true) _ [] rfl (by decide)

/-- Claim C4: with the table present and the queue non-empty, one
`processUpdates` call removes exactly the mappings queued at the moment the
drain starts as one batch, dispatches them sequentially in insertion
order, and any mapping enqueued during the drain (the arrival schedule)
remains queued for the next batch. -/
theorem processUpdates_batch_semantics (hh : SchemaType → Bool) (s : ServiceState)
    (σ : Schemas) (arrivals : List (List SchemaMapping)) (hσ : s.schemas = some σ)
    (hq : s.updateQueue ≠ []) (hlen : arrivals.length = s.updateQueue.length)
    (hall : ∀ m ∈ s.updateQueue, hh m.type = true) :
    processUpdatesA hh s arrivals =
      ({ s with updateQueue := arrivals.flatten }, s.updateQueue, none) := by
  have hne : s.updateQueue.isEmpty = false := by simpa [List.isEmpty_iff] using hq
  simp [processUpdatesA, hne, hσ,
    dispatchBatch_all_handled hh s.updateQueue arrivals [] hall hlen]

/-- Witness for C4 at a concrete input: a two-element batch with one
mapping arriving during the first handler call. -/
theorem processUpdates_batch_semantics_witness :
    processUpdatesA (fun _ => true)
        { updateQueue := [⟨"d1", SchemaType.json, some "o", some (.key "cfn")⟩,
                          ⟨"d2", SchemaType.yaml, some "o", some (.key "sam")⟩],
          schemas := some [], owned := [] }
        [[⟨"d3", SchemaType.json, some "o", some (.key "cfn")⟩], []] =
      ({ updateQueue := [⟨"d3", SchemaType.json, some "o", some (.key "cfn")⟩],
         schemas := some [], owned := [] },
        [⟨"d1", SchemaType.json, some "o", some (.key "cfn")⟩,
         ⟨"d2", SchemaType.yaml, some "o", some (.key "sam")⟩], none) :=
  processUpdates_batch_semantics (fun _ => true) _ [] _ rfl (by decide) rfl (by decide)

/-- Claim C8: a drained batch containing a mapping whose type has no
registered handler aborts with an error at the first such mapping: exactly
the mappings before the failure point are dispatched, and since the batch
was already spliced out of the queue, the remaining batch mappings are lost
(the queue ends empty, and they are not re-enqueued). -/
theorem processUpdates_missing_handler_aborts (hh : SchemaType → Bool) (s : ServiceState)
    (σ : Schemas) (pre : List SchemaMapping) (bad : SchemaMapping)
    (post : List SchemaMapping) (hσ : s.schemas = some σ)
    (hq : s.updateQueue = pre ++ bad :: post) (hpre : ∀ m ∈ pre, hh m.type = true)
    (hbad : hh bad.type = false) :
    processUpdates hh s =
      ({ s with updateQueue := [] }, pre, some "no registered handler for type") := by
  have hne : s.updateQueue.isEmpty = false := by
    simp [hq, List.isEmpty_iff]
  simp [processUpdates, processUpdatesA, hne, hσ, hq,
    dispatchBatch_missing_handler hh pre bad post [] hpre hbad]

/-- Witness for C8 at a concrete input: a three-element batch whose middle
mapping is of an unhandled type; only the first is dispatched and the third
is lost. -/
theorem processUpdates_missing_handler_aborts_witness :
    processUpdates (fun t => match t with | SchemaType.json => true | SchemaType.yaml => false)
        { updateQueue := [⟨"d1", SchemaType.json, some "o", some (.key "cfn")⟩,
                          ⟨"d2", SchemaType.yaml, some "o", some (.key "sam")⟩,
                          ⟨"d3", SchemaType.json, some "o", some (.key "cfn")⟩],
          schemas := some [], owned := [] } =
      ({ updateQueue := [], schemas := some [], owned := [] },
        [⟨"d1", SchemaType.json, some "o", some (.key "cfn")⟩],
        some "no registered handler for type") :=
  processUpdates_missing_handler_aborts
    (fun t => match t with | SchemaType.json => true | SchemaType.yaml => false) _ []
    [⟨"d1", SchemaType.json, some "o", some (.key "cfn")⟩]
    ⟨"d2", SchemaType.yaml, some "o", some (.key "sam")⟩
    [⟨"d3", SchemaType.json, some "o", some (.key "cfn")⟩]
    rfl rfl (by decide) (by decide)

/-- Claim C9 (counterexample): a reachable service state (built by
registering a mapping of a type with no registered handler on a service
whose table is resolved) in which the timer firing's awaited
`processUpdates` call throws, so `this.timer?.refresh()` is never reached
and the timer is NOT rescheduled — refuting "after every firing, the
completion of the awaited processUpdates call (whatever its outcome) is
followed by rescheduling the next firing". -/
theorem timerFired_not_rescheduled_cex :
    (timerFired (fun t => match t with | SchemaType.json => true | SchemaType.yaml => false)
        (registerMapping (initialService (some []))
          ⟨"doc", SchemaType.yaml, some "owner", some (.key "cfn")⟩)).2 = false := by
  decide

/-- Claim C9 (amended): a timer firing reschedules the next firing exactly
when the awaited `processUpdates` call completes without throwing, i.e.
when the schema table is absent (early return) or every queued mapping's
type has a registered handler; a firing whose drain hits an unhandled type
skips `timer.refresh()` and stops the recurring timer. -/
theorem timerFired_reschedule_iff (hh : SchemaType → Bool) (s : ServiceState) :
    (timerFired hh s).2 = true ↔
      (s.schemas = none ∨ ∀ m ∈ s.updateQueue, hh m.type = true) := by
  by_cases h1 : s.updateQueue.isEmpty
  · have hq : s.updateQueue = [] := List.isEmpty_iff.mp h1
    simp [timerFired, processUpdates, processUpdatesA, h1, hq]
  · by_cases h2 : s.schemas.isNone
    · have hs : s.schemas = none := Option.isNone_iff_eq_none.mp h2
      simp [timerFired, processUpdates, processUpdatesA, h2, hs]
    · have hs : s.schemas ≠ none := fun h => h2 (by simp [h])
      have h1' : s.updateQueue.isEmpty = false := Bool.eq_false_iff.mpr h1
      have h2' : s.schemas.isNone = false := Bool.eq_false_iff.mpr h2
      have hred : (timerFired hh s).2 = (dispatchBatch hh s.updateQueue [] []).2.2.isNone := by
        simp [timerFired, processUpdates, processUpdatesA, h1', h2']
      rw [hred, Option.isNone_iff_eq_none, dispatchBatch_err_none_iff hh s.updateQueue [] []]
      tauto

/-- Witness for C9's amended theorem at a concrete input. -/
theorem timerFired_reschedule_iff_witness :
    (timerFired (fun _ => true)
        { updateQueue := [⟨"w9", SchemaType.json, some "o", some (.key "cfn")⟩],
          schemas := some [], owned := [] }).2 = true :=
  (timerFired_reschedule_iff (fun _ => true) _).mpr (Or.inr (by decide))

theorem lookupTable_setTable_self (tbl : List (String × SchemaMapping)) (u : String)
    (m : SchemaMapping) : lookupTable (setTable tbl u m) u = some m := by
  induction tbl with
  | nil => simp [setTable, lookupTable]
  | cons p rest ih =>
    obtain ⟨k, v⟩ := p
    by_cases h : k = u
    · simp [setTable, lookupTable, h]
    · simp [setTable, lookupTable, h, ih]

/-- Claim C1 (counterexample): URI "u" is recorded in the ownership table
with owner "A" (and schema "s1"); a `registerMapping` call from the
different owner "B" with a different schema "s2" IS pushed onto the update
queue (first conjunct), even though the `isOwnerUndefined` rule cannot hold
for an already-present URI (second conjunct: the table lookup is not
`none`) — so the mapping is accepted through the `isSchemaChanged` rule,
refuting both "accepted only under the isOwnerUndefined rule" and "an
already-claimed URI's mapping can never be changed by a mapping whose owner
differs from the recorded owner". -/
theorem registerMapping_claimed_uri_cex :
    (registerMapping
        { updateQueue := [], schemas := none,
          owned := [("u", ⟨"u", SchemaType.json, some "A", some (.key "s1")⟩)] }
        ⟨"u", SchemaType.json, some "B", some (.key "s2")⟩).updateQueue =
      [⟨"u", SchemaType.json, some "B", some (.key "s2")⟩]
    ∧ (lookupTable [("u", (⟨"u", SchemaType.json, some "A", some (.key "s1")⟩ : SchemaMapping))]
        "u").isNone = false := by decide

/-- Claim C1 (amended): for a URI already claimed with recorded owner `A`,
a mapping from a different owner `B` is accepted into the update queue
exactly when its schema differs from the recorded schema — in that case
`B` becomes the new claimed owner via the `isSchemaChanged` rule and the
mapping is enqueued; when the schema is unchanged, the call leaves the
service state entirely unmodified (silently ignored). -/
theorem registerMapping_claimed_uri_schema_rule (s : ServiceState) (m prior : SchemaMapping)
    (A B : String) (hprior : lookupTable s.owned m.uri = some prior)
    (hA : prior.owner = some A) (hB : m.owner = some B) (hne : B ≠ A) :
    (prior.schema ≠ m.schema →
      registerMapping s m =
        { s with owned := setTable s.owned m.uri m,
                 updateQueue := s.updateQueue ++ [m] })
    ∧ (prior.schema = m.schema → registerMapping s m = s) := by
  constructor
  · intro hd
    simp [registerMapping, claimTransition, hprior, hB, hd, lookupTable_setTable_self]
  · intro hd
    simp [registerMapping, claimTransition, hprior, hB, hd, hA, hne]

/-- Witness for C1's amended theorem at a concrete input: the
different-owner, different-schema mapping is claimed and enqueued. -/
theorem registerMapping_claimed_uri_schema_rule_witness :
    registerMapping
        { updateQueue := [], schemas := none,
          owned := [("w1", ⟨"w1", SchemaType.json, some "A", some (.key "s1")⟩)] }
        ⟨"w1", SchemaType.json, some "B", some (.key "s2")⟩ =
      { updateQueue := [⟨"w1", SchemaType.json, some "B", some (.key "s2")⟩],
        schemas := none,
        owned := [("w1", ⟨"w1", SchemaType.json, some "B", some (.key "s2")⟩)] } :=
  (registerMapping_claimed_uri_schema_rule
      { updateQueue := [], schemas := none,
        owned := [("w1", ⟨"w1", SchemaType.json, some "A", some (.key "s1")⟩)] }
      ⟨"w1", SchemaType.json, some "B", some (.key "s2")⟩
      ⟨"w1", SchemaType.json, some "A", some (.key "s1")⟩ "A" "B"
      (by decide) rfl rfl (by decide)).1 (by decide)

theorem setTable_owner_defined (tbl : List (String × SchemaMapping)) (u : String)
    (m : SchemaMapping) (h : ∀ p ∈ tbl, p.2.owner ≠ none) (hm : m.owner ≠ none) :
    ∀ p ∈ setTable tbl u m, p.2.owner ≠ none := by
  induction tbl with
  | nil => simpa [setTable] using hm
  | cons q rest ih =>
    obtain ⟨k, v⟩ := q
    have hv : v.owner ≠ none := h (k, v) (List.mem_cons_self _ _)
    have hrest : ∀ p ∈ rest, p.2.owner ≠ none := fun p hp => h p (List.mem_cons_of_mem _ hp)
    by_cases hk : k = u
    · simp only [setTable, if_pos hk, List.forall_mem_cons]
      exact ⟨hm, hrest⟩
    · simp only [setTable, if_neg hk, List.forall_mem_cons]
      exact ⟨hv, ih hrest⟩

theorem registerMapping_owned_eq (s : ServiceState) (m : SchemaMapping) :
    (registerMapping s m).owned = claimTransition s.owned m := by
  simp only [registerMapping]
  split <;> rfl

theorem claimTransition_owner_defined (owned : List (String × SchemaMapping))
    (m : SchemaMapping) (h : ∀ p ∈ owned, p.2.owner ≠ none) :
    ∀ p ∈ claimTransition owned m, p.2.owner ≠ none := by
  simp only [claimTransition]
  split
  · rename_i hflag
    have hm : m.owner ≠ none := by
      rcases Bool.or_eq_true_iff.mp hflag with hl | hr
      · have := (Bool.and_eq_true_iff.mp (Bool.and_eq_true_iff.mp hl).1).2
        simpa [Option.isSome_iff_ne_none] using this
      · have := (Bool.and_eq_true_iff.mp (Bool.and_eq_true_iff.mp hr).1).2
        simpa [Option.isSome_iff_ne_none] using this
    exact setTable_owner_defined owned m.uri m h hm
  · exact h

theorem registerMapping_owner_defined (s : ServiceState) (m : SchemaMapping)
    (h : ∀ p ∈ s.owned, p.2.owner ≠ none) :
    ∀ p ∈ (registerMapping s m).owned, p.2.owner ≠ none := by
  rw [registerMapping_owned_eq]
  exact claimTransition_owner_defined s.owned m h

/-- Claim C10: invariant of the ownership table — starting from the
freshly-constructed service, after any sequence of `registerMapping` calls
every entry stored in the ownership table has a defined owner, because both
claim-transition branches (`isOwnerUndefined` and `isSchemaChanged`)
require the incoming mapping's owner to be defined before writing it. -/
theorem owned_entries_have_owner (σ : Option Schemas) (ms : List SchemaMapping) :
    ∀ p ∈ (ms.foldl registerMapping (initialService σ)).owned, p.2.owner ≠ none := by
  have general : ∀ (ms : List SchemaMapping) (s : ServiceState),
      (∀ p ∈ s.owned, p.2.owner ≠ none) →
      ∀ p ∈ (ms.foldl registerMapping s).owned, p.2.owner ≠ none := by
    intro ms
    induction ms with
    | nil => intro s hs; simpa using hs
    | cons m rest ih =>
      intro s hs
      simpa using ih (registerMapping s m) (registerMapping_owner_defined s m hs)
  exact general ms (initialService σ) (by simp [initialService])

/-- Witness for C10 at a concrete input: the entry written for the single
registered mapping has the defined owner "o". -/
theorem owned_entries_have_owner_witness :
    (("u", (⟨"u", SchemaType.json, some "o", some (.key "k")⟩ : SchemaMapping)) :
        String × SchemaMapping).2.owner ≠ none :=
  owned_entries_have_owner none [⟨"u", SchemaType.json, some "o", some (.key "k")⟩]
    ("u", ⟨"u", SchemaType.json, some "o", some (.key "k")⟩) (by decide)

/-- Claim C3 (counterexample): dispatching the same resolvable JSON mapping
twice (one batch of two identical items, as produced by enqueuing it twice
and draining once) leaves the file path "doc1" twice in the shared entry's
`fileMatch` list — `JsonSchemaHandler.handleUpdate` appends with no
deduplication, refuting "produces no duplicate entries of M's file path in
any entry's fileMatch list". -/
theorem jsonHandler_duplicate_fileMatch_cex :
    ¬ (∀ e ∈ (jsonDrain { cleaned := false, settings := [] }
          [⟨"doc1", SchemaType.json, some "a", some (.key "cfn")⟩,
           ⟨"doc1", SchemaType.json, some "a", some (.key "cfn")⟩]
          [("cfn", "file:///cfn")]).settings,
        (e.fileMatch.getD []).Nodup) := by decide

/-- Claim C3 (amended): enqueuing the same mapping twice and draining once
does leave the JSON backing store in the same state as draining after each
enqueue separately (both schedules apply `handleUpdate` twice in sequence),
but the resulting state carries the mapping's file path twice in the shared
entry's `fileMatch` list: fan-in is NOT deduplicated. -/
theorem jsonHandler_double_enqueue_same_state :
    (∀ (st : JsonHandlerState) (m : SchemaMapping) (σ : Schemas),
      jsonDrain st [m, m] σ = jsonDrain (jsonDrain st [m] σ) [m] σ)
    ∧ (jsonDrain { cleaned := false, settings := [] }
          [⟨"doc1", SchemaType.json, some "a", some (.key "cfn")⟩,
           ⟨"doc1", SchemaType.json, some "a", some (.key "cfn")⟩]
          [("cfn", "file:///cfn")]).settings =
        [{ fileMatch := some ["doc1", "doc1"], url := some "file:///cfn" }] :=
  ⟨fun _ _ _ => rfl, by decide⟩

/-- Claim C5: when the supplied version equals the cached version key (or
no version was supplied) and the cached destination file content exists,
`updateSchemaFromRemote` is a no-op — no network fetch, nothing written,
version cache unchanged — and a second call with the unchanged version
against the resulting cache state performs no network fetch either. -/
theorem updateSchemaFromRemote_cache_hit (version : Option String) (env : RemoteEnv)
    (hv : version = none ∨ version = env.cachedVersion)
    (hc : hasCachedContent env = true) :
    updateSchemaFromRemote version env =
      { ok := true, fetched := false, written := false, newCachedVersion := env.cachedVersion }
    ∧ (updateSchemaFromRemote version
        { env with
          cachedVersion := (updateSchemaFromRemote version env).newCachedVersion }).fetched
      = false := by
  have hout : isOutdated version env = false := by
    rcases hv with h | h
    · simp [isOutdated, h]
    · cases version with
      | none => simp [isOutdated]
      | some v =>
        have : env.cachedVersion = some v := h.symm
        simp [isOutdated, this]
  have h1 : updateSchemaFromRemote version env =
      { ok := true, fetched := false, written := false,
        newCachedVersion := env.cachedVersion } := by
    simp [updateSchemaFromRemote, hout, hc]
  refine ⟨h1, ?_⟩
  rw [h1]
  show (updateSchemaFromRemote version env).fetched = false
  rw [h1]

/-- Witness for C5 at a concrete input. -/
theorem updateSchemaFromRemote_cache_hit_witness :
    updateSchemaFromRemote (some "v1")
        (⟨some "v1", some "X", none, true, true, true⟩ : RemoteEnv) =
      { ok := true, fetched := false, written := false, newCachedVersion := some "v1" }
    ∧ (updateSchemaFromRemote (some "v1")
        { (⟨some "v1", some "X", none, true, true, true⟩ : RemoteEnv) with
          cachedVersion := (updateSchemaFromRemote (some "v1")
            (⟨some "v1", some "X", none, true, true, true⟩ : RemoteEnv)).newCachedVersion
        }).fetched = false :=
  updateSchemaFromRemote_cache_hit (some "v1") ⟨some "v1", some "X", none, true, true, true⟩
    (Or.inr rfl) (by decide)

/-- Claim C6: `updateSchemaFromRemote` throws if and only if the fetch
pipeline (fetch, parse, or write) fails AND no cached destination file
content existed before the call; with cached content present every pipeline
failure is absorbed and the cached file kept. -/
theorem updateSchemaFromRemote_error_iff (version : Option String) (env : RemoteEnv) :
    (updateSchemaFromRemote version env).ok = false ↔
      (hasCachedContent env = false ∧ updatePipelineFails env = true) := by
  unfold updateSchemaFromRemote updatePipelineFails
  by_cases hc : hasCachedContent env = true <;>
    by_cases ho : isOutdated version env = true <;>
      cases hfc : fetchedContent env <;>
        by_cases hp : env.parseOk = true <;>
          by_cases hw : env.writeOk = true <;>
            simp_all

/-- Claim C7: no exception escapes `getDefaultSchemas` (it always returns
its schema table), and the table contains a "buildspec" entry exactly when
the CloudFront attempt succeeds or the S3 fallback attempt succeeds — so a
failed CDN attempt followed by a successful fallback yields a buildspec
entry, and two failed attempts yield none. -/
theorem getDefaultSchemas_buildspec_fallback (hash : String → String)
    (env : DefaultSchemasEnv) :
    getDefaultSchemas hash env = Except.ok (keysOf (getDefaultSchemas hash env))
    ∧ (("buildspec" ∈ keysOf (getDefaultSchemas hash env)) ↔
        (attemptBuildspec hash env.cdnFetch env.cdnEnv = true
          ∨ attemptBuildspec hash env.s3Fetch env.s3Env = true)) := by
  unfold getDefaultSchemas keysOf
  by_cases h1 : updateOk env.manifestVersion env.cfnEnv = true <;>
    by_cases h2 : updateOk env.manifestVersion env.samEnv = true <;>
      by_cases h3 : attemptBuildspec hash env.cdnFetch env.cdnEnv = true <;>
        by_cases h4 : attemptBuildspec hash env.s3Fetch env.s3Env = true <;>
          simp_all

end AwsSchemas
